import Mathlib

/-!
Verification of the family-location-tracker backend (josefm09/tracker).

This file gives a shallow embedding of the parts of the backend that the
specification talks about, translated from the JavaScript source:

* the user / family / place data model (`src/backend/models/User.js`,
  `src/backend/models/Family.js`, `src/backend/models/Location.js`);
* the permission evaluator `hasDataAccessPermission`
  (`src/backend/utils/security.js`);
* the per-user location-history endpoint
  (`GET /api/location/user/:userId/history` in
  `src/backend/routes/location.js`);
* the ingestion validators of `POST /api/location/update` and of the
  realtime `location_update` handler (`src/backend/socket/socketHandler.js`),
  together with the Location schema's coordinate bounds;
* the geofence-tagging loop of `POST /api/location/update` and the
  place-alert evaluation `checkPlaceAlerts` of the socket handler;
* the family-membership mutation routes (`leave`, `remove member`,
  `update member role`) and the corresponding `Family` model methods;
* the Haversine distance method `locationSchema.methods.distanceTo`,
  modelled over the real numbers.

JavaScript numbers that can be `NaN` or `±Infinity` are modelled by the
`JsNum` type; rationals stand in for the finite doubles that the discrete
claims exercise, and the geometry of `distanceTo` is idealised over `ℝ`.
-/

namespace Tracker

/-- The `locationSettings` subdocument of the User schema (the fields the
core reads; `locationAccuracy` and `updateFrequency` are never consulted by
the components under study). -/
structure LocationSettings where
  shareLocation : Bool
  deriving DecidableEq, Repr

/-- The `privacySettings` subdocument of the User schema. -/
structure PrivacySettings where
  shareLocationHistory : Bool
  allowEmergencyAlerts : Bool
  visibleToFamily : Bool
  deriving DecidableEq, Repr

/-- A family role, the `enum ['admin', 'member']` of both schemas. -/
inductive Role where
  | admin
  | member
  deriving DecidableEq, Repr

/-- One entry of a user's `families` array: `{familyId, role, joinedAt}`
(the timestamp is irrelevant to every claim and omitted). -/
structure FamilyRef where
  familyId : Nat
  role : Role
  deriving DecidableEq, Repr

/-- A user document, restricted to the fields the permission and ingestion
logic reads. Identifiers are numbers standing for ObjectIds. -/
structure User where
  id : Nat
  families : List FamilyRef
  locationSettings : LocationSettings
  privacySettings : PrivacySettings
  deriving DecidableEq, Repr

/-- Shared-family test used both by `hasDataAccessPermission` and by the
history route: `requester.families.some(rf => target.families.some(tf =>
tf.familyId.toString() === rf.familyId.toString()))`. -/
def sharedFamily (requester target : User) : Bool :=
  requester.families.any fun requesterFamily =>
    target.families.any fun targetFamily =>
      targetFamily.familyId == requesterFamily.familyId

/-- The function `hasDataAccessPermission(requester, target, dataType)` from
`src/backend/utils/security.js`: self-access is always allowed, otherwise a
shared family is required, and then the target's flags gate each category;
the `switch` falls through to `false` on unknown categories. -/
def hasDataAccessPermission (requester target : User) (dataType : String) : Bool :=
  if requester.id == target.id then
    true
  else if !sharedFamily requester target then
    false
  else
    match dataType with
    | "location" =>
        target.locationSettings.shareLocation &&
          target.privacySettings.visibleToFamily
    | "locationHistory" =>
        target.privacySettings.shareLocationHistory &&
          target.privacySettings.visibleToFamily
    | "profile" => target.privacySettings.visibleToFamily
    | _ => false

/-- Outcome of `GET /api/location/user/:userId/history`, keeping the four
distinct responses of the route. -/
inductive HistoryResult where
  | userNotFound
  | historySharingDisabled
  | notAuthorized
  | ok (targetUserId : Nat)
  deriving DecidableEq, Repr

/-- The permission portion of `GET /api/location/user/:userId/history`
(`src/backend/routes/location.js`): 404 when the target is absent, then the
target's `shareLocationHistory` flag is tested, and only afterwards the
shared-family membership; on success the route serves the target's
history. -/
def getUserHistory (requester : User) (target : Option User) : HistoryResult :=
  match target with
  | none => .userNotFound
  | some targetUser =>
    if !targetUser.privacySettings.shareLocationHistory then
      .historySharingDisabled
    else if !sharedFamily requester targetUser then
      .notAuthorized
    else
      .ok targetUser.id

/-- Sample users for concrete witnesses: `witnessUserA` and `witnessUserB`
belong to disjoint families. -/
def witnessUserA : User :=
  { id := 1
    families := [{ familyId := 10, role := .admin }]
    locationSettings := { shareLocation := true }
    privacySettings :=
      { shareLocationHistory := true
        allowEmergencyAlerts := true
        visibleToFamily := true } }

/-- Second witness user, in family 20 only, with every sharing flag on. -/
def witnessUserB : User :=
  { id := 2
    families := [{ familyId := 20, role := .member }]
    locationSettings := { shareLocation := true }
    privacySettings :=
      { shareLocationHistory := true
        allowEmergencyAlerts := true
        visibleToFamily := true } }

/-- A user in family 10 who shares location but has `visibleToFamily` off
and `shareLocationHistory` on. -/
def witnessUserC : User :=
  { id := 3
    families := [{ familyId := 10, role := .member }]
    locationSettings := { shareLocation := true }
    privacySettings :=
      { shareLocationHistory := true
        allowEmergencyAlerts := true
        visibleToFamily := false } }

/-- C5: without a shared family, a requester distinct from the target is
denied every data category, whatever the target's settings: the permission
evaluator returns `false` for every `dataType` string whenever the ids
differ and no family is shared. -/
theorem no_shared_family_denies_all_access
    (requester target : User) (dataType : String)
    (hne : requester.id ≠ target.id)
    (hshared : sharedFamily requester target = false) :
    hasDataAccessPermission requester target dataType = false := by
  simp only [hasDataAccessPermission, hshared]
  simp [hne]

/-- Witness for C5: users 1 and 2 share no family, and access to user 2's
current location is denied. -/
theorem no_shared_family_denies_all_access_witness :
    hasDataAccessPermission witnessUserA witnessUserB "location" = false :=
  no_shared_family_denies_all_access witnessUserA witnessUserB "location"
    (by decide) (by decide)

/-- C10: whenever the target user exists and has switched
`shareLocationHistory` off, the history route answers with the
privacy-specific denial, regardless of whether the requester shares any
family with the target. -/
theorem history_privacy_denial_precedes_family_check
    (requester targetUser : User)
    (hflag : targetUser.privacySettings.shareLocationHistory = false) :
    getUserHistory requester (some targetUser) =
      HistoryResult.historySharingDisabled := by
  simp [getUserHistory, hflag]

/-- Witness for C10: user 1 shares no family with the target, yet still
receives the distinct history-sharing-disabled denial. -/
theorem history_privacy_denial_precedes_family_check_witness :
    getUserHistory witnessUserA
      (some { witnessUserB with
                privacySettings :=
                  { shareLocationHistory := false
                    allowEmergencyAlerts := true
                    visibleToFamily := true } }) =
      HistoryResult.historySharingDisabled :=
  history_privacy_denial_precedes_family_check _ _ (by decide)

/-- C4, counterexample: users 1 and 3 share family 10, the target has
`shareLocationHistory = true` but `visibleToFamily = false`, and the
history request nevertheless succeeds — refuting the claim that
`visibleToFamily = false` denies location-history access. -/
theorem history_ignores_visibleToFamily_counterexample :
    witnessUserC.privacySettings.visibleToFamily = false ∧
    sharedFamily witnessUserA witnessUserC = true ∧
    getUserHistory witnessUserA (some witnessUserC) = HistoryResult.ok 3 := by
  decide

/-- A JavaScript number as it can arrive in a request body: an ordinary
finite double (idealised to a rational) or one of the non-finite values. -/
inductive JsNum where
  | num (value : ℚ)
  | nan
  | posInf
  | negInf
  deriving DecidableEq, Repr

/-- The `coordinates` object of a raw sample; each component may be absent
(`undefined`). -/
structure RawCoordinates where
  latitude : Option JsNum
  longitude : Option JsNum
  deriving DecidableEq, Repr

/-- A supplied `timestamp` value, abstracted by the two predicates the two
ingestion paths apply to it: whether it passes the REST validator's
`isISO8601` check, and whether `new Date(timestamp)` yields a valid (not
Invalid) Date. Every valid ISO-8601 string parses, but JavaScript's `Date`
also parses many non-ISO strings, so the flags are carried separately. -/
structure JsTimestamp where
  validISO : Bool
  parseableDate : Bool
  deriving DecidableEq, Repr

/-- A raw location sample as submitted by a client, restricted to the
fields that validation and the save-time casts inspect (the record's
remaining fields — `battery`, `deviceInfo`, `locationMethod`, `isManual` —
are absent, i.e. take their schema defaults). -/
structure RawSample where
  coordinates : Option RawCoordinates
  accuracy : Option JsNum
  timestamp : Option JsTimestamp
  altitude : Option JsNum
  heading : Option JsNum
  speed : Option JsNum
  deriving DecidableEq, Repr

/-- The latitude component reachable from a raw sample. -/
def latitudeOf (sample : RawSample) : Option JsNum :=
  sample.coordinates.bind fun c => c.latitude

/-- The longitude component reachable from a raw sample. -/
def longitudeOf (sample : RawSample) : Option JsNum :=
  sample.coordinates.bind fun c => c.longitude

/-- The check `isFloat` with bounds of express-validator on a required field: the
value must be present, finite (the strings `NaN` / `Infinity` are not
floats) and inside the closed interval. -/
def isFloatBetween (v : Option JsNum) (lo hi : ℚ) : Bool :=
  match v with
  | some (.num q) => lo ≤ q && q ≤ hi
  | _ => false

/-- The check `optional().isFloat` with minimum 0 for the `accuracy` field: absent passes,
otherwise the value must be a finite number `≥ 0`. -/
def optionalAccuracyOk (v : Option JsNum) : Bool :=
  match v with
  | none => true
  | some (.num q) => 0 ≤ q
  | some _ => false

/-- The check `optional().isISO8601()` for the `timestamp` field. -/
def optionalTimestampOk (v : Option JsTimestamp) : Bool :=
  match v with
  | none => true
  | some t => t.validISO

/-- The validator chain of `POST /api/location/update`
(`src/backend/routes/location.js`): latitude in `[-90, 90]`, longitude in
`[-180, 180]`, an optional non-negative accuracy and an optional ISO-8601
timestamp; `true` means the route answers 400 `Validation failed`. -/
def restValidationFails (sample : RawSample) : Bool :=
  !isFloatBetween (latitudeOf sample) (-90) 90 ||
  !isFloatBetween (longitudeOf sample) (-180) 180 ||
  !optionalAccuracyOk sample.accuracy ||
  !optionalTimestampOk sample.timestamp

/-- JavaScript truthiness of a possibly-absent number: `undefined`, `0` and
`NaN` are falsy, every other number (infinities included) is truthy. -/
def jsTruthy (v : Option JsNum) : Bool :=
  match v with
  | none => false
  | some (.num q) => !(q == 0)
  | some .nan => false
  | some .posInf => true
  | some .negInf => true

/-- The guard of the realtime `location_update` handler
(`src/backend/socket/socketHandler.js`): `!locationData.coordinates ||
!locationData.coordinates.latitude || !locationData.coordinates.longitude`;
`true` means the handler emits `Invalid location data` and stops. -/
def socketRejects (sample : RawSample) : Bool :=
  match sample.coordinates with
  | none => true
  | some c => !jsTruthy c.latitude || !jsTruthy c.longitude

/-- The coordinate constraints of the Location schema
(`src/backend/models/Location.js`): both components required, latitude with
`min: -90, max: 90`, longitude with `min: -180, max: 180`; mongoose's
`min`/`max` validators reject `NaN` and the infinities as well, so
acceptance coincides with `isFloatBetween`. A save of a record violating
them throws, which the socket handler reports as a generic failure. -/
def schemaAcceptsCoordinates (sample : RawSample) : Bool :=
  isFloatBetween (latitudeOf sample) (-90) 90 &&
  isFloatBetween (longitudeOf sample) (-180) 180

/-- A place's notification configuration (`notifications` subdocument of
the `places` array in the Family schema). -/
structure PlaceNotificationSettings where
  arrivalAlerts : Bool
  departureAlerts : Bool
  membersToNotify : List Nat
  deriving DecidableEq, Repr

/-- A geofence place of a family. The geometry (`coordinates`, `radius`)
is carried for fidelity; the tagging and alert pipelines below take the
containment test `location.isWithinPlace` as a parameter, so the discrete
claims do not evaluate the transcendental Haversine formula. -/
structure Place where
  placeId : Nat
  name : String
  type : String
  latitude : ℚ
  longitude : ℚ
  radius : ℚ
  notifications : PlaceNotificationSettings
  deriving DecidableEq, Repr

/-- One member record of a Family document. -/
structure Member where
  userId : Nat
  role : Role
  deriving DecidableEq, Repr

/-- A Family document, restricted to the fields the pipeline reads. -/
structure Family where
  familyId : Nat
  members : List Member
  places : List Place
  deriving DecidableEq, Repr

/-- The `location.place` subdocument attached by geofence tagging:
`{placeId, name, type}`. -/
structure PlaceRef where
  placeId : Nat
  name : String
  type : String
  deriving DecidableEq, Repr

/-- The `location.place` value built from a place. -/
def placeRefOf (place : Place) : PlaceRef :=
  { placeId := place.placeId, name := place.name, type := place.type }

/-- The geofence-tagging loop of `POST /api/location/update`
(`src/backend/routes/location.js` lines 74–85): for each family of the
user, the inner loop assigns `location.place` from the first place of that
family containing the sample and then `break`s — out of the inner loop
only, so a later family's match overwrites an earlier family's. The
containment test `within` stands for `location.isWithinPlace`. -/
def tagPlace (within : Place → Bool) (families : List Family) : Option PlaceRef :=
  families.foldl
    (fun tag family =>
      match family.places.find? within with
      | some place => some (placeRefOf place)
      | none => tag)
    none

/-- Outcome of `POST /api/location/update`. -/
inductive RestUpdateResult where
  | validationFailed
  | sharingDisabled
  | saved (place : Option PlaceRef)
  deriving DecidableEq, Repr

/-- The route `POST /api/location/update`: validator chain, then the
`user.locationSettings.shareLocation` gate (403), then the geofence-tagging
loop over the user's active families, then the save. -/
def restLocationUpdate (user : User) (sample : RawSample)
    (families : List Family) (within : Place → Bool) : RestUpdateResult :=
  if restValidationFails sample then
    .validationFailed
  else if !user.locationSettings.shareLocation then
    .sharingDisabled
  else
    .saved (tagPlace within families)

/-- Outcome of the realtime `location_update` handler. -/
inductive SocketUpdateResult where
  | invalidData
  | saveFailed
  | saved
  deriving DecidableEq, Repr

/-- The timestamp the socket handler stores is
`new Date(locationData.timestamp) || new Date()`; since `new Date` always
returns an object — an Invalid Date when the input is absent or
unparseable — the object is always truthy and the `|| new Date()` fallback
never fires. Mongoose's Date cast rejects an Invalid Date, so the save's
timestamp cast succeeds exactly when a timestamp was supplied and
`new Date` parses it. -/
def socketTimestampCastOk (v : Option JsTimestamp) : Bool :=
  match v with
  | some t => t.parseableDate
  | none => false

/-- Mongoose's Number cast on an optional numeric field: absent and any
number other than `NaN` (the infinities included) cast fine; `NaN` throws
a cast error. -/
def mongooseNumberCastOk (v : Option JsNum) : Bool :=
  match v with
  | some .nan => false
  | _ => true

/-- Whether `locationRecord.save()` succeeds on the socket path for the
fields the sample carries: the schema's coordinate bounds, the timestamp
cast (see `socketTimestampCastOk`) and the Number casts of the optional
numeric fields must all pass. -/
def socketSaveCastOk (sample : RawSample) : Bool :=
  schemaAcceptsCoordinates sample &&
  socketTimestampCastOk sample.timestamp &&
  mongooseNumberCastOk sample.accuracy &&
  mongooseNumberCastOk sample.altitude &&
  mongooseNumberCastOk sample.heading &&
  mongooseNumberCastOk sample.speed

/-- The realtime `location_update` handler
(`src/backend/socket/socketHandler.js`): the truthiness guard on the
coordinates, then the save, which the schema bounds and the casts of
`socketSaveCastOk` can still reject (reported as the generic failure); the
user's settings are never read — there is no `shareLocation` check on this
path. -/
def socketLocationUpdate (user : User) (sample : RawSample) : SocketUpdateResult :=
  if socketRejects sample then
    .invalidData
  else if !socketSaveCastOk sample then
    .saveFailed
  else
    .saved

/-- A well-formed sample away from the axes: latitude 10, longitude 20. -/
def plainSample : RawSample :=
  { coordinates := some { latitude := some (.num 10), longitude := some (.num 20) }
    accuracy := none
    timestamp := none
    altitude := none
    heading := none
    speed := none }

/-- A sample on the equator: latitude 0, longitude 10 — in range. -/
def zeroLatitudeSample : RawSample :=
  { coordinates := some { latitude := some (.num 0), longitude := some (.num 10) }
    accuracy := none
    timestamp := none
    altitude := none
    heading := none
    speed := none }

/-- A sample with the out-of-range latitude 91. -/
def lat91Sample : RawSample :=
  { coordinates := some { latitude := some (.num 91), longitude := some (.num 10) }
    accuracy := none
    timestamp := none
    altitude := none
    heading := none
    speed := none }

/-- A sample with no coordinates object at all. -/
def noCoordinatesSample : RawSample :=
  { coordinates := none
    accuracy := none
    timestamp := none
    altitude := none
    heading := none
    speed := none }

/-- The plain sample together with a supplied timestamp that is both valid
ISO 8601 and parseable by `new Date`, so that the socket save's timestamp
cast succeeds. -/
def timedSample : RawSample :=
  { plainSample with
      timestamp := some { validISO := true, parseableDate := true } }

/-- A user who has switched `shareLocation` off. -/
def noShareUser : User :=
  { id := 4
    families := [{ familyId := 10, role := .member }]
    locationSettings := { shareLocation := false }
    privacySettings :=
      { shareLocationHistory := true
        allowEmergencyAlerts := true
        visibleToFamily := true } }

/-- C2, counterexample: a user with `shareLocation = false` submits a valid
sample (in-range coordinates and a parseable timestamp) over the realtime
channel and it is persisted — the handler performs no permission check,
refuting the claim that every ingestion path rejects such samples. -/
theorem socket_ingest_ignores_shareLocation_counterexample :
    noShareUser.locationSettings.shareLocation = false ∧
    socketLocationUpdate noShareUser timedSample = SocketUpdateResult.saved := by
  decide

/-- C2, amended: only the REST update endpoint enforces the
`shareLocation` gate — a valid sample from a user with
`shareLocation = false` gets the 403 there — while the realtime
`location_update` handler never consults the flag: it persists any sample
passing its coordinate guard and the save-time casts (which need a
supplied, parseable timestamp, since the handler's `|| new Date()`
fallback is dead code), and when no timestamp is supplied it fails the
save with the generic error — for the cast, never for permissions. -/
theorem shareLocation_gate_rest_only
    (user : User) (sample : RawSample)
    (families : List Family) (within : Place → Bool)
    (hvalid : restValidationFails sample = false)
    (hflag : user.locationSettings.shareLocation = false) :
    restLocationUpdate user sample families within =
        RestUpdateResult.sharingDisabled ∧
      (socketRejects sample = false → socketSaveCastOk sample = true →
        socketLocationUpdate user sample = SocketUpdateResult.saved) ∧
      (∀ s2 : RawSample, s2.timestamp = none → socketRejects s2 = false →
        socketLocationUpdate user s2 = SocketUpdateResult.saveFailed) := by
  refine ⟨by simp [restLocationUpdate, hvalid, hflag], ?_, ?_⟩
  · intro hsock hcast
    simp [socketLocationUpdate, hsock, hcast]
  · intro s2 hts hsock
    simp [socketLocationUpdate, hsock, socketSaveCastOk, socketTimestampCastOk, hts]

/-- Witness for C2 (amended): the concrete no-sharing user is rejected on
the REST path, the timestamped sample is persisted on the socket path, and
the same sample without its timestamp fails the socket save. -/
theorem shareLocation_gate_rest_only_witness :
    restLocationUpdate noShareUser timedSample [] (fun _ => false) =
        RestUpdateResult.sharingDisabled ∧
      socketLocationUpdate noShareUser timedSample = SocketUpdateResult.saved ∧
      socketLocationUpdate noShareUser plainSample =
        SocketUpdateResult.saveFailed := by
  have h := shareLocation_gate_rest_only noShareUser timedSample [] (fun _ => false)
    (by decide) (by decide)
  exact ⟨h.1, h.2.1 (by decide) (by decide), h.2.2 plainSample (by decide) (by decide)⟩

/-- C6, counterexample: the sample at latitude 0, longitude 10 passes every
REST validator (it is in range), yet the realtime path rejects it: the
handler's truthiness test treats latitude 0 as missing — refuting the claim
that in-range samples with a zero component are never rejected for
validation. -/
theorem zero_latitude_rejected_counterexample :
    restValidationFails zeroLatitudeSample = false ∧
    socketRejects zeroLatitudeSample = true := by
  decide

/-- Presence and range of both components is exactly what `isFloatBetween`
accepts. -/
theorem isFloatBetween_eq_true_iff (v : Option JsNum) (lo hi : ℚ) :
    isFloatBetween v lo hi = true ↔
      ∃ q : ℚ, v = some (JsNum.num q) ∧ lo ≤ q ∧ q ≤ hi := by
  cases v with
  | none => simp [isFloatBetween]
  | some j => cases j <;> simp [isFloatBetween]

/-- C6, amended: on the REST endpoint a latitude of 91 fails validation
(and the schema bounds block it from persistence anywhere), and a sample
passing REST validation has finite in-range coordinates; on the realtime
path, however, the handler rejects exactly by truthiness — missing
coordinates are rejected, but so is a latitude of 0 even though it is in
range. -/
theorem ingestion_validation_characterization :
    (∀ sample : RawSample, latitudeOf sample = some (JsNum.num 91) →
        restValidationFails sample = true ∧
        schemaAcceptsCoordinates sample = false) ∧
    (∀ sample : RawSample, restValidationFails sample = false →
        ∃ lat lon : ℚ,
          latitudeOf sample = some (JsNum.num lat) ∧
          longitudeOf sample = some (JsNum.num lon) ∧
          -90 ≤ lat ∧ lat ≤ 90 ∧ -180 ≤ lon ∧ lon ≤ 180) ∧
    (∀ sample : RawSample, sample.coordinates = none →
        socketRejects sample = true) ∧
    (∀ (sample : RawSample) (c : RawCoordinates),
        sample.coordinates = some c → c.latitude = some (JsNum.num 0) →
        socketRejects sample = true) := by
  refine ⟨?_, ?_, ?_, ?_⟩
  · intro sample hlat
    have hfloat : isFloatBetween (latitudeOf sample) (-90) 90 = false := by
      rw [hlat]
      simp [isFloatBetween]
      norm_num
    constructor
    · simp [restValidationFails, hfloat]
    · simp [schemaAcceptsCoordinates, hfloat]
  · intro sample hvalid
    simp only [restValidationFails, Bool.or_eq_false_iff, Bool.not_eq_false'] at hvalid
    obtain ⟨⟨⟨hlat, hlon⟩, -⟩, -⟩ := hvalid
    obtain ⟨lat, hlat', hlat1, hlat2⟩ := (isFloatBetween_eq_true_iff _ _ _).mp hlat
    obtain ⟨lon, hlon', hlon1, hlon2⟩ := (isFloatBetween_eq_true_iff _ _ _).mp hlon
    exact ⟨lat, lon, hlat', hlon', hlat1, hlat2, hlon1, hlon2⟩
  · intro sample hnone
    simp [socketRejects, hnone]
  · intro sample c hc hlat
    simp [socketRejects, hc, hlat, jsTruthy]

/-- Witness for C6 (amended), applying the characterization at concrete
samples: latitude 91 fails REST validation and the schema bounds, the
plain sample's validity yields in-range coordinates, and the realtime path
rejects both the missing-coordinates sample and the zero-latitude one. -/
theorem ingestion_validation_characterization_witness :
    (restValidationFails lat91Sample = true ∧
      schemaAcceptsCoordinates lat91Sample = false) ∧
    (∃ lat lon : ℚ,
      latitudeOf plainSample = some (JsNum.num lat) ∧
      longitudeOf plainSample = some (JsNum.num lon) ∧
      -90 ≤ lat ∧ lat ≤ 90 ∧ -180 ≤ lon ∧ lon ≤ 180) ∧
    socketRejects noCoordinatesSample = true ∧
    socketRejects zeroLatitudeSample = true := by
  obtain ⟨h1, h2, h3, h4⟩ := ingestion_validation_characterization
  exact ⟨h1 lat91Sample (by decide), h2 plainSample (by decide),
    h3 noCoordinatesSample (by decide),
    h4 zeroLatitudeSample { latitude := some (JsNum.num 0), longitude := some (JsNum.num 10) }
      (by decide) (by decide)⟩

/-- A member record with its `userId` populated into the full user
document, as produced by the `populate('members.userId', ...)` calls of the
family-locations route and socket handler. -/
structure PopulatedMember where
  user : User
  role : Role
  color : String
  deriving DecidableEq, Repr

/-- The member filter of `GET /api/family/:familyId/locations`
(`src/backend/routes/family.js` lines 397–400) and of the socket
`get_family_locations` handler (identical code): the ids whose latest
locations are fetched and returned are the members with
`locationSettings.shareLocation` on — no other flag is consulted. -/
def visibleMemberIds (members : List PopulatedMember) : List Nat :=
  (members.filter fun member => member.user.locationSettings.shareLocation).map
    fun member => member.user.id

/-- Turns off `visibleToFamily` on a populated member, leaving everything
else unchanged. -/
def setInvisible (member : PopulatedMember) : PopulatedMember :=
  { member with
      user :=
        { member.user with
            privacySettings :=
              { member.user.privacySettings with visibleToFamily := false } } }

/-- A populated member whose user shares location but is not visible to
family. -/
def hiddenMember : PopulatedMember :=
  { user := witnessUserC, role := .member, color := "#007AFF" }

/-- C3, counterexample: user 3 has `shareLocation = true` but
`visibleToFamily = false`, yet the family-locations member filter selects
them, so their current location is disclosed to every family member —
refuting the claim that `visibleToFamily = false` denies access. -/
theorem family_locations_ignore_visibleToFamily_counterexample :
    hiddenMember.user.privacySettings.visibleToFamily = false ∧
    hiddenMember.user.locationSettings.shareLocation = true ∧
    visibleMemberIds [hiddenMember] = [3] := by
  decide

/-- C3, amended: the family-location queries disclose exactly the members
with `locationSettings.shareLocation` on; `privacySettings.visibleToFamily`
has no effect on the selection — switching it off for every member leaves
the disclosed set unchanged. -/
theorem family_locations_share_flag_characterization :
    (∀ (members : List PopulatedMember) (member : PopulatedMember),
        member ∈ members →
        member.user.locationSettings.shareLocation = true →
        member.user.id ∈ visibleMemberIds members) ∧
    (∀ (members : List PopulatedMember) (i : Nat),
        i ∈ visibleMemberIds members →
        ∃ member, member ∈ members ∧ member.user.id = i ∧
          member.user.locationSettings.shareLocation = true) ∧
    (∀ members : List PopulatedMember,
        visibleMemberIds (members.map setInvisible) = visibleMemberIds members) := by
  refine ⟨?_, ?_, ?_⟩
  · intro members member hmem hflag
    simp only [visibleMemberIds, List.mem_map, List.mem_filter]
    exact ⟨member, ⟨hmem, hflag⟩, rfl⟩
  · intro members i hi
    simp only [visibleMemberIds, List.mem_map, List.mem_filter] at hi
    obtain ⟨member, ⟨hmem, hflag⟩, hid⟩ := hi
    exact ⟨member, hmem, hid, hflag⟩
  · intro members
    induction members with
    | nil => rfl
    | cons head tail ih =>
      cases hflag : head.user.locationSettings.shareLocation <;>
        simp only [visibleMemberIds, List.map_cons, List.filter_cons] at ih ⊢ <;>
          simp [setInvisible, hflag, ih]

/-- Witness for C3 (amended): evaluating the characterization on the
singleton list holding the hidden member. -/
theorem family_locations_share_flag_characterization_witness :
    hiddenMember.user.id ∈ visibleMemberIds [hiddenMember] ∧
    (∃ member, member ∈ [hiddenMember] ∧ member.user.id = 3 ∧
      member.user.locationSettings.shareLocation = true) ∧
    visibleMemberIds ([hiddenMember].map setInvisible) =
      visibleMemberIds [hiddenMember] := by
  obtain ⟨h1, h2, h3⟩ := family_locations_share_flag_characterization
  exact ⟨h1 [hiddenMember] hiddenMember (by decide) (by decide),
    h2 [hiddenMember] 3 (by decide), h3 [hiddenMember]⟩

/-- The resolution order the specification claims for geofence tagging:
scan families in order and let the first family owning a containing place
provide the tag, taking that family's first containing place. Stated from
the claim's words, for comparison with `tagPlace`. -/
def firstFamilyFirstPlaceTag (within : Place → Bool)
    (families : List Family) : Option PlaceRef :=
  families.findSome? fun family => (family.places.find? within).map placeRefOf

/-- The resolution order the code actually implements: the last family (in
iteration order) owning a containing place provides the tag, again taking
that family's first containing place. -/
def lastFamilyFirstPlaceTag (within : Place → Bool)
    (families : List Family) : Option PlaceRef :=
  families.reverse.findSome? fun family => (family.places.find? within).map placeRefOf

/-- Two one-place families used by the geofence counterexamples; the
containment test `fun _ => true` realises a sample lying inside both
places (for instance, both places centred on the sample's coordinates). -/
def placeHome : Place :=
  { placeId := 100, name := "Home", type := "home"
    latitude := 0, longitude := 0, radius := 100
    notifications :=
      { arrivalAlerts := true, departureAlerts := true, membersToNotify := [] } }

/-- The second family's place, distinct from `placeHome`. -/
def placeWork : Place :=
  { placeId := 200, name := "Work", type := "work"
    latitude := 0, longitude := 0, radius := 100
    notifications :=
      { arrivalAlerts := true, departureAlerts := true, membersToNotify := [] } }

/-- Family 10 with members 1 and 3 and the single place `placeHome`. -/
def familyOne : Family :=
  { familyId := 10
    members := [{ userId := 1, role := .admin }, { userId := 3, role := .member }]
    places := [placeHome] }

/-- Family 20 with members 1 and 2 and the single place `placeWork`. -/
def familyTwo : Family :=
  { familyId := 20
    members := [{ userId := 1, role := .admin }, { userId := 2, role := .member }]
    places := [placeWork] }

/-- C1, counterexample: with a sample inside both families' places, the
tagging loop attaches the second family's place, not the first family's as
the claim states — the `break` leaves only the inner loop, so the later
family overwrites the earlier match. -/
theorem tagPlace_not_first_match_counterexample :
    tagPlace (fun _ => true) [familyOne, familyTwo] = some (placeRefOf placeWork) ∧
    firstFamilyFirstPlaceTag (fun _ => true) [familyOne, familyTwo] =
      some (placeRefOf placeHome) ∧
    placeRefOf placeWork ≠ placeRefOf placeHome := by
  decide

/-- Running `findSome?` over an appended list is the `Option.or` of the parts. -/
theorem findSome?_append_or {α β : Type} (g : α → Option β) (l₁ l₂ : List α) :
    (l₁ ++ l₂).findSome? g = (l₁.findSome? g).or (l₂.findSome? g) := by
  induction l₁ with
  | nil => simp [List.findSome?]
  | cons head tail ih =>
    cases hg : g head <;> simp [List.findSome?_cons, hg, ih]

/-- The overwrite fold computes the last `some` of the scanned list,
falling back to the accumulator. -/
theorem foldl_or_eq {α β : Type} (g : α → Option β) (l : List α) :
    ∀ acc : Option β,
      l.foldl (fun tag x => (g x).or tag) acc = (l.reverse.findSome? g).or acc := by
  induction l with
  | nil => intro acc; simp
  | cons head tail ih =>
    intro acc
    simp only [List.foldl_cons, List.reverse_cons]
    rw [ih, findSome?_append_or]
    cases tail.reverse.findSome? g <;> cases hg : g head <;>
      simp [List.findSome?_cons, hg, Option.or]

/-- C1, amended: within each family the first containing place (in place
order) is selected, but across families every later family owning a
containing place overwrites the earlier tag, so the persisted
`resolvedPlace` is the first containing place of the **last** family in
iteration order that has one. -/
theorem tagPlace_eq_last_family_first_place
    (within : Place → Bool) (families : List Family) :
    tagPlace within families = lastFamilyFirstPlaceTag within families := by
  unfold tagPlace lastFamilyFirstPlaceTag
  have hstep :
      (fun (tag : Option PlaceRef) (family : Family) =>
          match family.places.find? within with
          | some place => some (placeRefOf place)
          | none => tag) =
        fun tag family => ((family.places.find? within).map placeRefOf).or tag := by
    funext tag family
    cases family.places.find? within <;> rfl
  rw [hstep, foldl_or_eq, Option.or_none]

/-- The per-place recipient selection of `checkPlaceAlerts`
(`src/backend/socket/socketHandler.js` lines 426–436): the configured
`membersToNotify` when non-empty, else all family members, and the emit is
skipped for the sample's owner. -/
def alertRecipients (place : Place) (family : Family) (ownerId : Nat) : List Nat :=
  let membersToNotify :=
    if place.notifications.membersToNotify.length > 0 then
      place.notifications.membersToNotify
    else
      family.members.map fun member => member.userId
  membersToNotify.filter fun memberId => memberId != ownerId

/-- The helper `checkPlaceAlerts` of the socket handler: for every family of the
sample's owner and every place of that family, when the sample is inside
the place and arrival alerts are enabled, one `place_alert` is emitted per
selected recipient; the result lists the `(place, recipient)` pairs
emitted. The containment test `within` stands for
`locationRecord.isWithinPlace`. -/
def checkPlaceAlerts (within : Place → Bool) (families : List Family)
    (ownerId : Nat) : List (PlaceRef × Nat) :=
  families.flatMap fun family =>
    family.places.flatMap fun place =>
      if within place && place.notifications.arrivalAlerts then
        (alertRecipients place family ownerId).map
          fun memberId => (placeRefOf place, memberId)
      else
        []

/-- C8: the recipient set of an arrival alert is `membersToNotify` when
that list is non-empty and all family members otherwise, minus the sample's
owner in both cases; consequently no alert emitted by `checkPlaceAlerts`
ever targets the owner. -/
theorem place_alert_recipients_characterization :
    (∀ (place : Place) (family : Family) (ownerId memberId : Nat),
        memberId ∈ alertRecipients place family ownerId ↔
          memberId ≠ ownerId ∧
            (if place.notifications.membersToNotify ≠ [] then
              memberId ∈ place.notifications.membersToNotify
            else
              memberId ∈ family.members.map Member.userId)) ∧
    (∀ (within : Place → Bool) (families : List Family) (ownerId : Nat)
        (alert : PlaceRef × Nat),
        alert ∈ checkPlaceAlerts within families ownerId → alert.2 ≠ ownerId) := by
  constructor
  · intro place family ownerId memberId
    by_cases hne : place.notifications.membersToNotify = []
    · simp [alertRecipients, hne, List.mem_filter, and_comm]
    · have hlen : place.notifications.membersToNotify.length > 0 :=
        List.length_pos.mpr hne
      simp [alertRecipients, hne, hlen, List.mem_filter, and_comm]
  · intro within families ownerId alert halert
    simp only [checkPlaceAlerts, List.mem_flatMap] at halert
    obtain ⟨family, -, place, -, hin⟩ := halert
    by_cases hcond : (within place && place.notifications.arrivalAlerts) = true
    · rw [if_pos hcond] at hin
      simp only [List.mem_map] at hin
      obtain ⟨memberId, hmem, hpair⟩ := hin
      have hne : (memberId != ownerId) = true :=
        (List.mem_filter.mp hmem).2
      rw [← hpair]
      simpa using hne
    · rw [if_neg hcond] at hin
      exact absurd hin (List.not_mem_nil alert)

/-- Witness for C8: in family 20 the sample owner is user 1; the alert for
`placeWork` emitted to user 2 indeed excludes the owner. -/
theorem place_alert_recipients_characterization_witness :
    ((placeRefOf placeWork, 2) : PlaceRef × Nat).2 ≠ 1 :=
  place_alert_recipients_characterization.2 (fun _ => true) [familyTwo] 1
    (placeRefOf placeWork, 2) (by decide)

/-- The `adminCount` virtual of the Family schema. -/
def adminCount (family : Family) : Nat :=
  (family.members.filter fun member => member.role == Role.admin).length

/-- Whether some member of the family holds the admin role. -/
def hasAdmin (family : Family) : Bool :=
  family.members.any fun member => member.role == Role.admin

/-- The method `familySchema.methods.isUserMember`. -/
def isUserMember (family : Family) (userId : Nat) : Bool :=
  family.members.any fun member => member.userId == userId

/-- The method `familySchema.methods.removeMember`: filter the user's records out of
the members array. -/
def removeMember (family : Family) (userId : Nat) : Family :=
  { family with
      members := family.members.filter fun member => member.userId != userId }

/-- The mutation performed by `familySchema.methods.updateMemberRole`: the
first member record with the given user id gets the new role. -/
def setRoleFirst : List Member → Nat → Role → List Member
  | [], _, _ => []
  | member :: rest, userId, newRole =>
    if member.userId == userId then
      { member with role := newRole } :: rest
    else
      member :: setRoleFirst rest userId newRole

/-- Error outcomes of the family-membership routes. -/
inductive FamilyRouteError where
  | memberNotFound
  | lastAdmin
  deriving DecidableEq, Repr

deriving instance DecidableEq for Except

/-- The route `DELETE /api/family/:familyId/members/:memberId`
(`src/backend/routes/family.js` lines 348–389): 404 when the target is not
a member, 400 when the target is an admin and the family's only one,
otherwise the member is removed. -/
def removeMemberRoute (family : Family) (memberId : Nat) :
    Except FamilyRouteError Family :=
  if !isUserMember family memberId then
    .error .memberNotFound
  else
    match family.members.find? fun member => member.userId == memberId with
    | some memberToRemove =>
      if memberToRemove.role == Role.admin && adminCount family == 1 then
        .error .lastAdmin
      else
        .ok (removeMember family memberId)
    | none => .error .memberNotFound

/-- The route `POST /api/family/:familyId/leave`
(`src/backend/routes/family.js` lines 262–297): the membership middleware
rejects non-members; an admin who is the only admin of a family with other
members is refused, otherwise the member leaves. -/
def leaveFamilyRoute (family : Family) (userId : Nat) :
    Except FamilyRouteError Family :=
  if !isUserMember family userId then
    .error .memberNotFound
  else
    match family.members.find? fun member => member.userId == userId with
    | some userMember =>
      if userMember.role == Role.admin && adminCount family == 1 &&
          family.members.length > 1 then
        .error .lastAdmin
      else
        .ok (removeMember family userId)
    | none => .error .memberNotFound

/-- The route `PUT /api/family/:familyId/members/:memberId/role`
(`src/backend/routes/family.js` lines 299–345): 404 when the target is not
a member, otherwise `familySchema.methods.updateMemberRole` sets the new
role — there is no admin-floor guard on this path. -/
def updateMemberRoleRoute (family : Family) (memberId : Nat) (newRole : Role) :
    Except FamilyRouteError Family :=
  if !isUserMember family memberId then
    .error .memberNotFound
  else
    .ok { family with members := setRoleFirst family.members memberId newRole }

/-- A family whose only admin is user 1, with user 2 as a plain member. -/
def demoFamily : Family :=
  { familyId := 30
    members := [{ userId := 1, role := .admin }, { userId := 2, role := .member }]
    places := [] }

/-- The same family after demoting user 1. -/
def demotedFamily : Family :=
  { familyId := 30
    members := [{ userId := 1, role := .member }, { userId := 2, role := .member }]
    places := [] }

/-- C7, counterexample: demoting the sole admin of a two-member family via
the role-update route succeeds and leaves a non-empty family with no admin
— refuting the claim that every membership mutation preserves the
admin-floor invariant. -/
theorem role_update_breaks_admin_floor_counterexample :
    hasAdmin demoFamily = true ∧
    updateMemberRoleRoute demoFamily 1 Role.member = Except.ok demotedFamily ∧
    demotedFamily.members ≠ [] ∧
    hasAdmin demotedFamily = false := by
  decide

/-- After removing `memberId`, an admin remains, provided the userIds are
unique, some admin exists, and the removed record is either a plain member
or one of at least two admins. -/
theorem remove_keeps_admin (members : List Member) (memberId : Nat)
    (memberRec : Member)
    (hnodup : (members.map Member.userId).Nodup)
    (hmem : memberRec ∈ members) (hid : memberRec.userId = memberId)
    (hadm : (members.any fun m => m.role == Role.admin) = true)
    (hcase : memberRec.role = Role.member ∨
      2 ≤ (members.filter fun m => m.role == Role.admin).length) :
    ((members.filter fun m => m.userId != memberId).any
      fun m => m.role == Role.admin) = true := by
  rcases hcase with hrole | hcount
  · rw [List.any_eq_true] at hadm ⊢
    obtain ⟨a, ha, haro⟩ := hadm
    refine ⟨a, List.mem_filter.mpr ⟨ha, ?_⟩, haro⟩
    have hane : a ≠ memberRec := by
      intro h
      rw [h, hrole] at haro
      exact absurd haro (by decide)
    have hids : a.userId ≠ memberId := fun heq =>
      hane (List.inj_on_of_nodup_map hnodup ha hmem (heq.trans hid.symm))
    simpa [bne_iff_ne] using hids
  · have hex : ∃ a ∈ members.filter fun m => m.role == Role.admin,
        a.userId ≠ memberId := by
      by_contra hall
      push_neg at hall
      have hnd : ((members.filter fun m => m.role == Role.admin).map
          Member.userId).Nodup :=
        hnodup.sublist ((List.filter_sublist members).map Member.userId)
      obtain ⟨a, l₁, h₁⟩ :=
        List.exists_cons_of_ne_nil
          (l := members.filter fun m => m.role == Role.admin)
          (by intro h; rw [h] at hcount; simp at hcount)
      obtain ⟨b, l₂, h₂⟩ := List.exists_cons_of_ne_nil (l := l₁)
        (by intro h; rw [h₁, h] at hcount; simp at hcount)
      have hida : a.userId = memberId := hall a (h₁ ▸ List.mem_cons_self a l₁)
      have hidb : b.userId = memberId :=
        hall b (by rw [h₁, h₂]; exact List.mem_cons_of_mem _ (List.mem_cons_self b l₂))
      rw [h₁, h₂] at hnd
      simp only [List.map_cons, List.nodup_cons, List.mem_cons] at hnd
      exact hnd.1 (Or.inl (hida.trans hidb.symm))
    obtain ⟨a, hafilter, hane⟩ := hex
    rw [List.any_eq_true]
    exact ⟨a,
      List.mem_filter.mpr
        ⟨List.mem_of_mem_filter hafilter, by simpa [bne_iff_ne] using hane⟩,
      (List.mem_filter.mp hafilter).2⟩

/-- A failed `Role.admin` equality test forces the member role. -/
theorem role_eq_member_of_not_admin (r : Role) (h : (r == Role.admin) = false) :
    r = Role.member := by
  cases r
  · exact absurd h (by decide)
  · rfl

/-- C7, amended: removing a member and leaving a family preserve the
admin-floor invariant — on families with unique member ids, whenever the
route succeeds and the resulting member list is non-empty, an admin
remains (the sole-admin cases are rejected with `lastAdmin`) — but the
role-update route has no such guard: for any current member it succeeds,
including a demotion of the only admin. -/
theorem membership_mutations_admin_floor :
    (∀ (family : Family) (memberId : Nat) (result : Family),
        (family.members.map Member.userId).Nodup →
        (family.members ≠ [] → hasAdmin family = true) →
        removeMemberRoute family memberId = Except.ok result →
        result.members ≠ [] → hasAdmin result = true) ∧
    (∀ (family : Family) (userId : Nat) (result : Family),
        (family.members.map Member.userId).Nodup →
        (family.members ≠ [] → hasAdmin family = true) →
        leaveFamilyRoute family userId = Except.ok result →
        result.members ≠ [] → hasAdmin result = true) ∧
    (∀ (family : Family) (memberId : Nat),
        isUserMember family memberId = true →
        ∃ result,
          updateMemberRoleRoute family memberId Role.member =
            Except.ok result) := by
  refine ⟨?_, ?_, ?_⟩
  · intro family memberId result hnodup hinv hok _hne
    rw [removeMemberRoute] at hok
    by_cases hmem : isUserMember family memberId = true
    · rw [hmem] at hok
      simp only [Bool.not_true, Bool.false_eq_true, if_false] at hok
      cases hfind : family.members.find? fun member => member.userId == memberId with
      | none => rw [hfind] at hok; exact absurd hok (by simp)
      | some memberToRemove =>
        simp only [hfind] at hok
        have hmemrec : memberToRemove ∈ family.members :=
          List.mem_of_find?_eq_some hfind
        have hidrec : memberToRemove.userId = memberId := by
          have := List.find?_some hfind
          simpa using this
        have hne : family.members ≠ [] := List.ne_nil_of_mem hmemrec
        have hadm := hinv hne
        by_cases hguard :
            (memberToRemove.role == Role.admin && adminCount family == 1) = true
        · rw [if_pos hguard] at hok; exact absurd hok (by simp)
        · rw [if_neg hguard] at hok
          have hres : result = removeMember family memberId := by
            injection hok with h; exact h.symm
          subst hres
          rw [Bool.and_eq_true, not_and] at hguard
          rw [hasAdmin, removeMember]
          by_cases hrole : (memberToRemove.role == Role.admin) = true
          · have hcount : adminCount family ≠ 1 := by
              intro h1
              exact hguard hrole (by simp [h1])
            have hpos : 1 ≤ adminCount family := by
              rw [adminCount]
              exact List.length_pos.mpr
                (List.ne_nil_of_mem (List.mem_filter.mpr ⟨hmemrec, hrole⟩))
            exact remove_keeps_admin family.members memberId memberToRemove
              hnodup hmemrec hidrec hadm
              (Or.inr (by unfold adminCount at hcount hpos; omega))
          · exact remove_keeps_admin family.members memberId memberToRemove
              hnodup hmemrec hidrec hadm
              (Or.inl (role_eq_member_of_not_admin _ (by simpa using hrole)))
    · rw [Bool.not_eq_true] at hmem
      rw [hmem] at hok
      exact absurd hok (by simp)
  · intro family userId result hnodup hinv hok hres_ne
    rw [leaveFamilyRoute] at hok
    by_cases hmem : isUserMember family userId = true
    · rw [hmem] at hok
      simp only [Bool.not_true, Bool.false_eq_true, if_false] at hok
      cases hfind : family.members.find? fun member => member.userId == userId with
      | none => rw [hfind] at hok; exact absurd hok (by simp)
      | some userMember =>
        simp only [hfind] at hok
        have hmemrec : userMember ∈ family.members :=
          List.mem_of_find?_eq_some hfind
        have hidrec : userMember.userId = userId := by
          have := List.find?_some hfind
          simpa using this
        have hne : family.members ≠ [] := List.ne_nil_of_mem hmemrec
        have hadm := hinv hne
        by_cases hguard :
            (userMember.role == Role.admin && adminCount family == 1 &&
              decide (family.members.length > 1)) = true
        · rw [if_pos hguard] at hok; exact absurd hok (by simp)
        · rw [if_neg hguard] at hok
          have hres : result = removeMember family userId := by
            injection hok with h; exact h.symm
          subst hres
          rw [hasAdmin, removeMember]
          by_cases hrole : (userMember.role == Role.admin) = true
          · by_cases hcount1 : adminCount family = 1
            · -- the guard can only have failed on the length test:
              -- the family is the singleton of its sole admin
              have hlen : ¬ family.members.length > 1 := by
                intro hlen
                exact hguard (by simp [hrole, hcount1, hlen])
              have hlen1 : family.members.length = 1 := by
                have := List.length_pos.mpr hne
                omega
              obtain ⟨x, hx⟩ := List.length_eq_one.mp hlen1
              have hxrec : userMember = x := by
                rw [hx] at hmemrec
                simpa using hmemrec
              exfalso
              apply hres_ne
              rw [removeMember, hx, ← hxrec]
              simp [hidrec]
            · have hpos : 1 ≤ adminCount family := by
                rw [adminCount]
                exact List.length_pos.mpr
                  (List.ne_nil_of_mem (List.mem_filter.mpr ⟨hmemrec, hrole⟩))
              exact remove_keeps_admin family.members userId userMember
                hnodup hmemrec hidrec hadm
                (Or.inr (by unfold adminCount at hcount1 hpos; omega))
          · exact remove_keeps_admin family.members userId userMember
              hnodup hmemrec hidrec hadm
              (Or.inl (role_eq_member_of_not_admin _ (by simpa using hrole)))
    · rw [Bool.not_eq_true] at hmem
      rw [hmem] at hok
      exact absurd hok (by simp)
  · intro family memberId hmem
    exact ⟨_, by rw [updateMemberRoleRoute, hmem]; rfl⟩

/-- Witness for C7 (amended): removing the non-last admin user 2 from the
demo family succeeds and user 1 remains as admin; leaving behaves the same
way; and the role-update route accepts the demotion of user 1. -/
theorem membership_mutations_admin_floor_witness :
    hasAdmin { familyId := 30
               members := [{ userId := 1, role := Role.admin }]
               places := [] } = true ∧
    hasAdmin { familyId := 31
               members := [{ userId := 1, role := Role.admin }]
               places := [] } = true ∧
    (∃ result,
      updateMemberRoleRoute demoFamily 1 Role.member = Except.ok result) := by
  obtain ⟨h1, h2, h3⟩ := membership_mutations_admin_floor
  refine ⟨?_, ?_, h3 demoFamily 1 (by decide)⟩
  · exact h1 demoFamily 2
      { familyId := 30
        members := [{ userId := 1, role := Role.admin }]
        places := [] }
      (by decide) (fun _ => by decide) (by decide) (by decide)
  · exact h2 { demoFamily with familyId := 31 } 2
      { familyId := 31
        members := [{ userId := 1, role := Role.admin }]
        places := [] }
      (by decide) (fun _ => by decide) (by decide) (by decide)

/-- C4, amended: a history request for an existing target succeeds exactly
when the target's `shareLocationHistory` flag is on and the requester
shares a family with the target; the route never consults
`visibleToFamily`. -/
theorem history_access_characterization
    (requester targetUser : User) :
    getUserHistory requester (some targetUser) =
        HistoryResult.ok targetUser.id ↔
      targetUser.privacySettings.shareLocationHistory = true ∧
        sharedFamily requester targetUser = true := by
  cases hflag : targetUser.privacySettings.shareLocationHistory <;>
    cases hshared : sharedFamily requester targetUser <;>
      simp [getUserHistory, hflag, hshared]

/-- A coordinate pair for the geometry of
`locationSchema.methods.distanceTo`, idealised over the real numbers. -/
structure GeoCoord where
  latitude : ℝ
  longitude : ℝ

/-- JavaScript's `Math.atan2(y, x)`: the angle of the point `(x, y)`, by
the usual quadrant case split, with `atan2(0, 0) = 0`. -/
noncomputable def atan2 (y x : ℝ) : ℝ :=
  if 0 < x then Real.arctan (y / x)
  else if x < 0 ∧ 0 ≤ y then Real.arctan (y / x) + Real.pi
  else if x < 0 ∧ y < 0 then Real.arctan (y / x) - Real.pi
  else if x = 0 ∧ 0 < y then Real.pi / 2
  else if x = 0 ∧ y < 0 then -(Real.pi / 2)
  else 0

/-- The intermediate value `a` of `distanceTo`
(`src/backend/models/Location.js` lines 634–647): with `φ` the latitudes in
radians and `Δφ, Δλ` the coordinate differences in radians,
`sin(Δφ/2)·sin(Δφ/2) + cos φ1 · cos φ2 · sin(Δλ/2)·sin(Δλ/2)`. -/
noncomputable def haversineA (a b : GeoCoord) : ℝ :=
  Real.sin ((b.latitude - a.latitude) * Real.pi / 180 / 2) *
      Real.sin ((b.latitude - a.latitude) * Real.pi / 180 / 2) +
    Real.cos (a.latitude * Real.pi / 180) * Real.cos (b.latitude * Real.pi / 180) *
      Real.sin ((b.longitude - a.longitude) * Real.pi / 180 / 2) *
      Real.sin ((b.longitude - a.longitude) * Real.pi / 180 / 2)

/-- The method `locationSchema.methods.distanceTo`: the Haversine distance in meters,
`R · c` with `R = 6371e3` and `c = 2 · atan2(√a, √(1−a))`. -/
noncomputable def distanceTo (a b : GeoCoord) : ℝ :=
  6371000 *
    (2 * atan2 (Real.sqrt (haversineA a b)) (Real.sqrt (1 - haversineA a b)))

/-- The method `locationSchema.methods.isWithinPlace` over the real geometry:
containment is distance at most the place's radius. The Boolean `within`
parameter of `tagPlace` and `checkPlaceAlerts` stands for this test
evaluated at the ingested sample. -/
def isWithinPlaceReal (point center : GeoCoord) (radius : ℝ) : Prop :=
  distanceTo point center ≤ radius

/-- The Haversine intermediate value is symmetric in its two points. -/
theorem haversineA_symm (a b : GeoCoord) : haversineA a b = haversineA b a := by
  unfold haversineA
  have hphi : (a.latitude - b.latitude) * Real.pi / 180 / 2 =
      -((b.latitude - a.latitude) * Real.pi / 180 / 2) := by ring
  have hlam : (a.longitude - b.longitude) * Real.pi / 180 / 2 =
      -((b.longitude - a.longitude) * Real.pi / 180 / 2) := by ring
  rw [hphi, hlam]
  simp only [Real.sin_neg]
  ring

/-- The angle of the point `(1, 0)` is zero. -/
theorem atan2_zero_one : atan2 0 1 = 0 := by
  unfold atan2
  rw [if_pos one_pos]
  simp [Real.arctan_zero]

/-- The Haversine intermediate value vanishes on the diagonal. -/
theorem haversineA_self (p : GeoCoord) : haversineA p p = 0 := by
  unfold haversineA
  simp

/-- The Haversine intermediate value also vanishes between longitudes 180
and −180 at equal latitude: the longitude difference of 360° has
`sin(Δλ/2) = sin(−π) = 0`. -/
theorem haversineA_wrap :
    haversineA { latitude := 0, longitude := 180 }
      { latitude := 0, longitude := -180 } = 0 := by
  unfold haversineA
  norm_num
  have harg : -(360 * Real.pi) / 180 / 2 = -Real.pi := by ring
  rw [harg, Real.sin_neg, Real.sin_pi, neg_zero]

/-- C9, counterexample: the in-range coordinate pairs `(0, 180)` and
`(0, −180)` differ, yet `distanceTo` is zero between them (they name the
same point of the sphere, which is not an antipodal configuration) —
refuting "distance zero if and only if the coordinates are equal". -/
theorem distance_zero_for_unequal_coordinates_counterexample :
    distanceTo { latitude := 0, longitude := 180 }
        { latitude := 0, longitude := -180 } = 0 ∧
      ({ latitude := 0, longitude := 180 } : GeoCoord) ≠
        { latitude := 0, longitude := -180 } := by
  constructor
  · unfold distanceTo
    rw [haversineA_wrap, Real.sqrt_zero]
    norm_num
    exact atan2_zero_one
  · intro h
    have hlon := congrArg GeoCoord.longitude h
    norm_num at hlon

/-- C9, amended: `distanceTo` is symmetric and vanishes on equal
coordinates; distance zero does not conversely force coordinate equality,
since distinct coordinate representations of one point (longitude ±180,
the poles) are at distance zero. -/
theorem distanceTo_symm_and_self :
    (∀ a b : GeoCoord, distanceTo a b = distanceTo b a) ∧
      (∀ p : GeoCoord, distanceTo p p = 0) := by
  constructor
  · intro a b
    unfold distanceTo
    rw [haversineA_symm]
  · intro p
    unfold distanceTo
    rw [haversineA_self, Real.sqrt_zero]
    norm_num
    exact atan2_zero_one

end Tracker
